import Mathlib

/-!
Shallow embedding of the in-memory group membership index
(`groupRepositoryMock` from the MainfluxLabs repository) and a verification
of the specification's claims about it.

The Go struct holds five pieces of state: a map of groups keyed by group ID,
a reverse index from thing ID to group ID (`thingMembership`), a forward
index from group ID to the ordered sequence of member thing IDs (`things`),
and the two symmetric structures for channels.  Go maps are modelled as an
association list for the group store (the only map the operations iterate
over) and as functions `String → Option _` for the four indices.  Every
operation returns its result together with the post-state; `time.Now()` is
passed as an explicit `now` parameter; `uint64` page arithmetic keeps the
explicit wrap modulo `2 ^ 64`.
-/

namespace Mocks

/-- Error taxonomy of the repository: `errors.ErrNotFound` and
`errors.ErrConflict`. -/
inductive Err where
  | notFound
  | conflict
deriving DecidableEq, Repr

/-- The `things.Group` record.  `Metadata` is an open key/value bag,
timestamps are natural numbers. -/
structure Group where
  ID : String
  OwnerID : String
  Name : String
  Description : String
  Metadata : List (String × String)
  CreatedAt : Nat
  UpdatedAt : Nat
deriving DecidableEq, Repr

/-- A thing, tracked by ID only (`things.Thing{ID: ...}`). -/
structure Thing where
  ID : String
deriving DecidableEq, Repr

/-- A channel, tracked by ID only (`things.Channel{ID: ...}`). -/
structure Channel where
  ID : String
deriving DecidableEq, Repr

/-- The page request/response metadata used by the mock: `Total`, `Offset`,
`Limit` (all `uint64` in Go). -/
structure PageMetadata where
  Total : Nat := 0
  Offset : Nat := 0
  Limit : Nat := 0
deriving DecidableEq, Repr

/-- Result of `RetrieveByOwner`: `things.GroupPage`. -/
structure GroupPage where
  Groups : List Group := []
  PageMetadata : PageMetadata := {}
deriving DecidableEq, Repr

/-- Result of `RetrieveGroupThings`: `things.GroupThingsPage`. -/
structure GroupThingsPage where
  Things : List Thing := []
  PageMetadata : PageMetadata := {}
deriving DecidableEq, Repr

/-- Result of `RetrieveGroupChannels`: `things.GroupChannelsPage`. -/
structure GroupChannelsPage where
  Channels : List Channel := []
  PageMetadata : PageMetadata := {}
deriving DecidableEq, Repr

/-- State of `groupRepositoryMock`: the group store keyed by group ID, the
reverse index and forward index for things, and the same pair for
channels. -/
structure groupRepositoryMock where
  groups : List (String × Group)
  thingMembership : String → Option String
  things : String → Option (List String)
  channelMembership : String → Option String
  channels : String → Option (List String)

/-- Go map indexing `grm.groups[id]` on the association-list model. -/
def findGroup : List (String × Group) → String → Option Group
  | [], _ => none
  | (k, g) :: rest, id => if k = id then some g else findGroup rest id

/-- Point update of a function-represented map: `m[k] = v` for
`v = some _`, `delete(m, k)` for `v = none`. -/
def upd (m : String → Option α) (k : String) (v : Option α) : String → Option α :=
  fun x => if x = k then v else m x

/-- `NewGroupRepository`: all five maps start empty. -/
def NewGroupRepository : groupRepositoryMock :=
  { groups := []
    thingMembership := fun _ => none
    things := fun _ => none
    channelMembership := fun _ => none
    channels := fun _ => none }

/-- `Save`: conflict when the ID is already stored, otherwise insert the
group keyed by its ID and return it unchanged. -/
def Save (grm : groupRepositoryMock) (group : Group) :
    Except Err Group × groupRepositoryMock :=
  match findGroup grm.groups group.ID with
  | some _ => (.error .conflict, grm)
  | none => (.ok group, { grm with groups := grm.groups ++ [(group.ID, group)] })

/-- Replace the stored value at key `id` (Go `grm.groups[group.ID] = up` on
a key that is present). -/
def replaceGroup (gs : List (String × Group)) (id : String) (g : Group) :
    List (String × Group) :=
  gs.map fun p => if p.1 = id then (id, g) else p

/-- The field merge performed by `Update`: `Name`, `Description`,
`Metadata` come from the input, `UpdatedAt` from the clock, everything else
from the stored record `up`. -/
def updatedGroup (up group : Group) (now : Nat) : Group :=
  { up with Name := group.Name, Description := group.Description,
            Metadata := group.Metadata, UpdatedAt := now }

/-- `Update`: not found when the ID is absent; otherwise overwrite `Name`,
`Description`, `Metadata` and stamp `UpdatedAt` with the current time
(passed here as `now`), keeping the rest of the stored record. -/
def Update (grm : groupRepositoryMock) (group : Group) (now : Nat) :
    Except Err Group × groupRepositoryMock :=
  match findGroup grm.groups group.ID with
  | none => (.error .notFound, grm)
  | some up =>
    let up' := updatedGroup up group now
    (.ok up', { grm with groups := replaceGroup grm.groups group.ID up' })

/-- The `delete(m, k)` loop over a list of keys. -/
def deleteKeys (m : String → Option String) (ks : List String) :
    String → Option String :=
  ks.foldl (fun acc k => upd acc k none) m

/-- Effect of `Remove` on one present group ID: delete the reverse-index
entry of every thing and channel currently in the group's forward sequence,
then delete the group record.  The forward-index entries themselves are left
in place, exactly as in the source. -/
def removeOne (grm : groupRepositoryMock) (id : String) : groupRepositoryMock :=
  { grm with
    thingMembership := deleteKeys grm.thingMembership ((grm.things id).getD [])
    channelMembership := deleteKeys grm.channelMembership ((grm.channels id).getD [])
    groups := grm.groups.filter fun p => p.1 ≠ id }

/-- `Remove`: process the IDs in order, stopping with `NotFound` at the
first absent one; the state mutated so far is kept. -/
def Remove : groupRepositoryMock → List String → Except Err Unit × groupRepositoryMock
  | grm, [] => (.ok (), grm)
  | grm, id :: ids =>
    match findGroup grm.groups id with
    | none => (.error .notFound, grm)
    | some _ => Remove (removeOne grm id) ids

/-- `RetrieveByID`. -/
def RetrieveByID (grm : groupRepositoryMock) (id : String) :
    Except Err Group × groupRepositoryMock :=
  match findGroup grm.groups id with
  | none => (.error .notFound, grm)
  | some val => (.ok val, grm)

/-- `RetrieveAll`: snapshot of every stored group. -/
def RetrieveAll (grm : groupRepositoryMock) :
    Except Err (List Group) × groupRepositoryMock :=
  (.ok (grm.groups.map Prod.snd), grm)

/-- `RetrieveByOwner`: as in the source, iterates the whole group store and
reports its size as `Total`; the `ownerID` argument and the page metadata
are never consulted. -/
def RetrieveByOwner (grm : groupRepositoryMock) (ownerID : String)
    (pm : PageMetadata) : Except Err GroupPage × groupRepositoryMock :=
  let items := grm.groups.map Prod.snd
  (.ok { Groups := items, PageMetadata := { Total := items.length } }, grm)

/-- Remove the first occurrence of `t` (the inner `for ... break` loop of
`UnassignThing`). -/
def removeFirst : List String → String → List String
  | [], _ => []
  | x :: xs, t => if x = t then xs else x :: removeFirst xs t

/-- The per-thing loop of `UnassignThing`: for each thing ID, not found when
the group has no forward-index entry; otherwise drop the first occurrence
from the sequence and delete the reverse-index entry, or silently skip a
thing that is not in the sequence. -/
def unassignThingLoop (groupID : String) :
    List String → groupRepositoryMock → Except Err Unit × groupRepositoryMock
  | [], grm => (.ok (), grm)
  | thingID :: rest, grm =>
    match grm.things groupID with
    | none => (.error .notFound, grm)
    | some ths =>
      if thingID ∈ ths then
        unassignThingLoop groupID rest
          { grm with
            things := upd grm.things groupID (some (removeFirst ths thingID))
            thingMembership := upd grm.thingMembership thingID none }
      else
        unassignThingLoop groupID rest grm

/-- `UnassignThing`: not found when the group record is absent, otherwise
run the per-thing loop. -/
def UnassignThing (grm : groupRepositoryMock) (groupID : String)
    (thingIDs : List String) : Except Err Unit × groupRepositoryMock :=
  match findGroup grm.groups groupID with
  | none => (.error .notFound, grm)
  | some _ => unassignThingLoop groupID thingIDs grm

/-- The per-thing loop of `AssignThing`: append each thing ID to the group's
forward sequence and point its reverse-index entry at the group. -/
def assignThingLoop (groupID : String) :
    List String → groupRepositoryMock → groupRepositoryMock
  | [], grm => grm
  | thingID :: rest, grm =>
    assignThingLoop groupID rest
      { grm with
        things := upd grm.things groupID
          (some ((grm.things groupID).getD [] ++ [thingID]))
        thingMembership := upd grm.thingMembership thingID (some groupID) }

/-- The initialisation step of `AssignThing`: create an empty forward entry
for the group when none exists yet. -/
def initThings (grm : groupRepositoryMock) (groupID : String) :
    groupRepositoryMock :=
  match grm.things groupID with
  | none => { grm with things := upd grm.things groupID (some []) }
  | some _ => grm

/-- `AssignThing`: not found when the group record is absent; otherwise
initialise the forward entry to an empty sequence when missing, then run the
per-thing loop. -/
def AssignThing (grm : groupRepositoryMock) (groupID : String)
    (thingIDs : List String) : Except Err Unit × groupRepositoryMock :=
  match findGroup grm.groups groupID with
  | none => (.error .notFound, grm)
  | some _ => (.ok (), assignThingLoop groupID thingIDs (initThings grm groupID))

/-- `RetrieveThingMembership`: reverse-index lookup. -/
def RetrieveThingMembership (grm : groupRepositoryMock) (thingID : String) :
    Except Err String × groupRepositoryMock :=
  match grm.thingMembership thingID with
  | none => (.error .notFound, grm)
  | some groupID => (.ok groupID, grm)

/-- `RetrieveGroupThings`: not found when the group has no forward-index
entry; otherwise slice `[Offset, Offset+Limit)` out of the sequence, with
the `uint64` addition wrapping modulo `2 ^ 64` and the upper bound clamped
to the sequence length, and report the slice's own length as `Total`. -/
def RetrieveGroupThings (grm : groupRepositoryMock) (ownerID groupID : String)
    (pm : PageMetadata) : Except Err GroupThingsPage × groupRepositoryMock :=
  match grm.things groupID with
  | none => (.error .notFound, grm)
  | some ths =>
    let first := pm.Offset
    let last0 := (first + pm.Limit) % 2 ^ 64
    let last := if last0 > ths.length then ths.length else last0
    let items := ((ths.drop first).take (last - first)).map
      fun id => ({ ID := id } : Thing)
    (.ok { Things := items, PageMetadata := { Total := items.length } }, grm)

/-- The per-channel loop of `AssignChannel`: unlike the thing variant there
is no initialisation step, each iteration appends to the (possibly missing,
hence defaulted) forward entry. -/
def assignChannelLoop (groupID : String) :
    List String → groupRepositoryMock → groupRepositoryMock
  | [], grm => grm
  | channelID :: rest, grm =>
    assignChannelLoop groupID rest
      { grm with
        channels := upd grm.channels groupID
          (some ((grm.channels groupID).getD [] ++ [channelID]))
        channelMembership := upd grm.channelMembership channelID (some groupID) }

/-- `AssignChannel`. -/
def AssignChannel (grm : groupRepositoryMock) (groupID : String)
    (channelIDs : List String) : Except Err Unit × groupRepositoryMock :=
  match findGroup grm.groups groupID with
  | none => (.error .notFound, grm)
  | some _ => (.ok (), assignChannelLoop groupID channelIDs grm)

/-- The per-channel loop of `UnassignChannel`, symmetric to the thing
variant. -/
def unassignChannelLoop (groupID : String) :
    List String → groupRepositoryMock → Except Err Unit × groupRepositoryMock
  | [], grm => (.ok (), grm)
  | channelID :: rest, grm =>
    match grm.channels groupID with
    | none => (.error .notFound, grm)
    | some chs =>
      if channelID ∈ chs then
        unassignChannelLoop groupID rest
          { grm with
            channels := upd grm.channels groupID (some (removeFirst chs channelID))
            channelMembership := upd grm.channelMembership channelID none }
      else
        unassignChannelLoop groupID rest grm

/-- `UnassignChannel`. -/
def UnassignChannel (grm : groupRepositoryMock) (groupID : String)
    (channelIDs : List String) : Except Err Unit × groupRepositoryMock :=
  match findGroup grm.groups groupID with
  | none => (.error .notFound, grm)
  | some _ => unassignChannelLoop groupID channelIDs grm

/-- `RetrieveChannelMembership`. -/
def RetrieveChannelMembership (grm : groupRepositoryMock) (channelID : String) :
    Except Err String × groupRepositoryMock :=
  match grm.channelMembership channelID with
  | none => (.error .notFound, grm)
  | some groupID => (.ok groupID, grm)

/-- `RetrieveGroupChannels`: unlike the thing variant, a group with no
forward-index entry yields the zero-value page and no error. -/
def RetrieveGroupChannels (grm : groupRepositoryMock) (ownerID groupID : String)
    (pm : PageMetadata) : Except Err GroupChannelsPage × groupRepositoryMock :=
  match grm.channels groupID with
  | none => (.ok {}, grm)
  | some chs =>
    let first := pm.Offset
    let last0 := (first + pm.Limit) % 2 ^ 64
    let last := if last0 > chs.length then chs.length else last0
    let items := ((chs.drop first).take (last - first)).map
      fun id => ({ ID := id } : Channel)
    (.ok { Channels := items, PageMetadata := { Total := items.length } }, grm)

/-- `RetrieveAllThingRelations`: flatten the forward thing index. -/
def RetrieveAllThingRelations (grm : groupRepositoryMock)
    (groupIDs : List String) : List (String × String) :=
  groupIDs.flatMap fun grID => ((grm.things grID).getD []).map fun thID => (grID, thID)

/-- The specification's forward/reverse agreement invariant for things: a
thing's reverse-index entry points at `g` exactly when the thing occurs
exactly once in `g`'s forward sequence. -/
def thingIndexInv (grm : groupRepositoryMock) : Prop :=
  ∀ t g, grm.thingMembership t = some g ↔ ((grm.things g).getD []).count t = 1

/-- The same invariant for channels. -/
def channelIndexInv (grm : groupRepositoryMock) : Prop :=
  ∀ c g, grm.channelMembership c = some g ↔ ((grm.channels g).getD []).count c = 1

/-- The two-sided index invariant claimed by the specification, for both
resource kinds. -/
def indexInv (grm : groupRepositoryMock) : Prop :=
  thingIndexInv grm ∧ channelIndexInv grm

/-- Sample group owned by `o1`, used in concrete scenarios. -/
def gA : Group :=
  { ID := "g1", OwnerID := "o1", Name := "n1", Description := "",
    Metadata := [], CreatedAt := 0, UpdatedAt := 0 }

/-- Sample group owned by `o2`, used in concrete scenarios. -/
def gB : Group :=
  { ID := "g2", OwnerID := "o2", Name := "n2", Description := "",
    Metadata := [], CreatedAt := 0, UpdatedAt := 0 }

/-! Helper lemmas about the map models. -/

theorem upd_self (m : String → Option α) (k : String) (v : Option α) :
    upd m k v k = v := by
  simp [upd]

theorem upd_other (m : String → Option α) (k : String) (v : Option α)
    (x : String) (hx : x ≠ k) : upd m k v x = m x := by
  simp [upd, hx]

theorem deleteKeys_apply (ks : List String) (m : String → Option String)
    (x : String) : deleteKeys m ks x = if x ∈ ks then none else m x := by
  induction ks generalizing m with
  | nil => simp [deleteKeys]
  | cons k rest ih =>
    have hstep : deleteKeys m (k :: rest) = deleteKeys (upd m k none) rest := rfl
    rw [hstep, ih]
    by_cases hk : x = k
    · subst hk
      by_cases hr : x ∈ rest <;> simp [hr, upd]
    · by_cases hr : x ∈ rest <;> simp [hr, hk, upd]

theorem findGroup_cons (k : String) (g : Group) (rest : List (String × Group))
    (x : String) :
    findGroup ((k, g) :: rest) x = if k = x then some g else findGroup rest x :=
  rfl

theorem findGroup_filter (gs : List (String × Group)) (id x : String) :
    findGroup (gs.filter fun p => p.1 ≠ id) x =
      if x = id then none else findGroup gs x := by
  induction gs with
  | nil => simp [findGroup]
  | cons p rest ih =>
    obtain ⟨k, g⟩ := p
    rcases eq_or_ne k id with hk | hk
    · have hfil : ((k, g) :: rest).filter (fun p => p.1 ≠ id) =
          rest.filter (fun p => p.1 ≠ id) := by
        simp [List.filter_cons, hk]
      rw [hfil, ih]
      rcases eq_or_ne x id with hx | hx
      · rw [if_pos hx, if_pos hx]
      · have hkx : k ≠ x := by rw [hk]; exact Ne.symm hx
        rw [if_neg hx, if_neg hx, findGroup_cons, if_neg hkx]
    · have hfil : ((k, g) :: rest).filter (fun p => p.1 ≠ id) =
          (k, g) :: rest.filter (fun p => p.1 ≠ id) := by
        simp [List.filter_cons, hk]
      rw [hfil, findGroup_cons, findGroup_cons]
      rcases eq_or_ne k x with hkx | hkx
      · have hxid : x ≠ id := by rw [← hkx]; exact hk
        rw [if_pos hkx, if_neg hxid, if_pos hkx]
      · rw [if_neg hkx, if_neg hkx, ih]

theorem findGroup_replace (gs : List (String × Group)) (id : String) (g : Group)
    (x : String) :
    findGroup (replaceGroup gs id g) x =
      if x = id then (findGroup gs id).map (fun _ => g) else findGroup gs x := by
  induction gs with
  | nil => simp [replaceGroup, findGroup]
  | cons p rest ih =>
    obtain ⟨k, v⟩ := p
    have hcons : replaceGroup ((k, v) :: rest) id g =
        (if k = id then (id, g) else (k, v)) :: replaceGroup rest id g := rfl
    rcases eq_or_ne k id with hk | hk
    · rw [hcons, if_pos hk, findGroup_cons, ih, findGroup_cons, if_pos hk]
      rcases eq_or_ne x id with hx | hx
      · rw [if_pos (Eq.symm hx), if_pos hx, Option.map_some']
      · have hkx : k ≠ x := by rw [hk]; exact Ne.symm hx
        rw [if_neg (Ne.symm hx), if_neg hx, if_neg hx, findGroup_cons, if_neg hkx]
    · rw [hcons, if_neg hk, findGroup_cons, ih, findGroup_cons, if_neg hk]
      rcases eq_or_ne x id with hx | hx
      · have hkx : k ≠ x := by rw [hx]; exact hk
        rw [if_neg hkx, if_pos hx, if_pos hx]
      · rw [if_neg hx, if_neg hx, findGroup_cons]

theorem findGroup_append (gs : List (String × Group)) (k : String) (g : Group)
    (x : String) :
    findGroup (gs ++ [(k, g)]) x =
      match findGroup gs x with
      | some v => some v
      | none => if k = x then some g else none := by
  induction gs with
  | nil => simp [findGroup]
  | cons p rest ih =>
    obtain ⟨k', v⟩ := p
    by_cases hx : k' = x <;> simp [findGroup, hx, ih]

/-! Lemmas about `Remove`. -/

theorem removeOne_things (grm : groupRepositoryMock) (id : String) :
    (removeOne grm id).things = grm.things := rfl

theorem removeOne_channels (grm : groupRepositoryMock) (id : String) :
    (removeOne grm id).channels = grm.channels := rfl

theorem removeOne_member_none (grm : groupRepositoryMock) (id t : String)
    (ht : t ∈ (grm.things id).getD []) :
    (removeOne grm id).thingMembership t = none := by
  show deleteKeys grm.thingMembership ((grm.things id).getD []) t = none
  rw [deleteKeys_apply, if_pos ht]

theorem removeOne_chmember_none (grm : groupRepositoryMock) (id c : String)
    (hc : c ∈ (grm.channels id).getD []) :
    (removeOne grm id).channelMembership c = none := by
  show deleteKeys grm.channelMembership ((grm.channels id).getD []) c = none
  rw [deleteKeys_apply, if_pos hc]

theorem removeOne_groups_self (grm : groupRepositoryMock) (id : String) :
    findGroup (removeOne grm id).groups id = none := by
  show findGroup (grm.groups.filter fun p => p.1 ≠ id) id = none
  rw [findGroup_filter, if_pos rfl]

theorem removeOne_groups_other (grm : groupRepositoryMock) (id x : String)
    (hx : x ≠ id) :
    findGroup (removeOne grm id).groups x = findGroup grm.groups x := by
  show findGroup (grm.groups.filter fun p => p.1 ≠ id) x = findGroup grm.groups x
  rw [findGroup_filter, if_neg hx]

theorem Remove_things (ids : List String) (grm : groupRepositoryMock) :
    (Remove grm ids).2.things = grm.things := by
  induction ids generalizing grm with
  | nil => rfl
  | cons id rest ih =>
    cases h : findGroup grm.groups id with
    | none => simp [Remove, h]
    | some g => simpa [Remove, h] using ih (removeOne grm id)

theorem Remove_channels (ids : List String) (grm : groupRepositoryMock) :
    (Remove grm ids).2.channels = grm.channels := by
  induction ids generalizing grm with
  | nil => rfl
  | cons id rest ih =>
    cases h : findGroup grm.groups id with
    | none => simp [Remove, h]
    | some g => simpa [Remove, h] using ih (removeOne grm id)

theorem Remove_mem_none (ids : List String) (grm : groupRepositoryMock)
    (t : String) (h : grm.thingMembership t = none) :
    (Remove grm ids).2.thingMembership t = none := by
  induction ids generalizing grm with
  | nil => exact h
  | cons id rest ih =>
    cases hf : findGroup grm.groups id with
    | none => simpa [Remove, hf] using h
    | some g =>
      have h1 : (removeOne grm id).thingMembership t = none := by
        show deleteKeys grm.thingMembership ((grm.things id).getD []) t = none
        rw [deleteKeys_apply]
        by_cases hm : t ∈ (grm.things id).getD [] <;> simp [hm, h]
      simpa [Remove, hf] using ih _ h1

theorem Remove_chmem_none (ids : List String) (grm : groupRepositoryMock)
    (c : String) (h : grm.channelMembership c = none) :
    (Remove grm ids).2.channelMembership c = none := by
  induction ids generalizing grm with
  | nil => exact h
  | cons id rest ih =>
    cases hf : findGroup grm.groups id with
    | none => simpa [Remove, hf] using h
    | some g =>
      have h1 : (removeOne grm id).channelMembership c = none := by
        show deleteKeys grm.channelMembership ((grm.channels id).getD []) c = none
        rw [deleteKeys_apply]
        by_cases hm : c ∈ (grm.channels id).getD [] <;> simp [hm, h]
      simpa [Remove, hf] using ih _ h1

theorem Remove_groups_none (ids : List String) (grm : groupRepositoryMock)
    (x : String) (h : findGroup grm.groups x = none) :
    findGroup (Remove grm ids).2.groups x = none := by
  induction ids generalizing grm with
  | nil => exact h
  | cons id rest ih =>
    cases hf : findGroup grm.groups id with
    | none => simpa [Remove, hf] using h
    | some g =>
      have h1 : findGroup (removeOne grm id).groups x = none := by
        by_cases hx : x = id
        · rw [hx]; exact removeOne_groups_self grm id
        · rw [removeOne_groups_other grm id x hx]; exact h
      simpa [Remove, hf] using ih _ h1

/-! Lemmas about the assignment loop. -/

theorem assignThingLoop_groups (groupID : String) (ts : List String) :
    ∀ grm, (assignThingLoop groupID ts grm).groups = grm.groups := by
  induction ts with
  | nil => intro grm; rfl
  | cons t rest ih => intro grm; exact ih _

theorem assignThingLoop_channels (groupID : String) (ts : List String) :
    ∀ grm, (assignThingLoop groupID ts grm).channels = grm.channels := by
  induction ts with
  | nil => intro grm; rfl
  | cons t rest ih => intro grm; exact ih _

theorem assignThingLoop_chmembership (groupID : String) (ts : List String) :
    ∀ grm, (assignThingLoop groupID ts grm).channelMembership =
      grm.channelMembership := by
  induction ts with
  | nil => intro grm; rfl
  | cons t rest ih => intro grm; exact ih _

theorem assignThingLoop_things (groupID : String) (ts : List String) :
    ∀ grm l, grm.things groupID = some l →
      ∀ x, (assignThingLoop groupID ts grm).things x =
        if x = groupID then some (l ++ ts) else grm.things x := by
  induction ts with
  | nil =>
    intro grm l hl x
    by_cases hx : x = groupID
    · subst hx; simpa [assignThingLoop] using hl
    · simp [assignThingLoop, hx]
  | cons t rest ih =>
    intro grm l hl x
    have hstep : assignThingLoop groupID (t :: rest) grm =
        assignThingLoop groupID rest
          { grm with
            things := upd grm.things groupID
              (some ((grm.things groupID).getD [] ++ [t]))
            thingMembership := upd grm.thingMembership t (some groupID) } := rfl
    have hl' : (upd grm.things groupID
        (some ((grm.things groupID).getD [] ++ [t]))) groupID =
        some (l ++ [t]) := by
      rw [upd_self, hl]; rfl
    rw [hstep, ih _ (l ++ [t]) hl' x]
    by_cases hx : x = groupID
    · rw [if_pos hx, if_pos hx, List.append_assoc]; rfl
    · rw [if_neg hx, if_neg hx]
      exact upd_other _ _ _ _ hx

theorem assignThingLoop_membership (groupID : String) (ts : List String) :
    ∀ grm t, (assignThingLoop groupID ts grm).thingMembership t =
      if t ∈ ts then some groupID else grm.thingMembership t := by
  induction ts with
  | nil => intro grm t; simp [assignThingLoop]
  | cons a rest ih =>
    intro grm t
    have hstep : assignThingLoop groupID (a :: rest) grm =
        assignThingLoop groupID rest
          { grm with
            things := upd grm.things groupID
              (some ((grm.things groupID).getD [] ++ [a]))
            thingMembership := upd grm.thingMembership a (some groupID) } := rfl
    rw [hstep, ih]
    by_cases hr : t ∈ rest
    · simp [hr]
    · by_cases ha : t = a
      · subst ha; simp [hr, upd_self]
      · simp [hr, ha, upd_other _ _ _ _ ha]

/-! Lemmas about the initialisation step of `AssignThing`. -/

theorem initThings_things_self (grm : groupRepositoryMock) (groupID : String) :
    (initThings grm groupID).things groupID =
      some ((grm.things groupID).getD []) := by
  cases h : grm.things groupID <;> simp [initThings, h, upd_self]

theorem initThings_things_other (grm : groupRepositoryMock)
    (groupID x : String) (hx : x ≠ groupID) :
    (initThings grm groupID).things x = grm.things x := by
  cases h : grm.things groupID <;> simp [initThings, h, upd_other _ _ _ _ hx]

theorem initThings_membership (grm : groupRepositoryMock) (groupID : String) :
    (initThings grm groupID).thingMembership = grm.thingMembership := by
  cases h : grm.things groupID <;> simp [initThings, h]

theorem initThings_groups (grm : groupRepositoryMock) (groupID : String) :
    (initThings grm groupID).groups = grm.groups := by
  cases h : grm.things groupID <;> simp [initThings, h]

theorem initThings_channels (grm : groupRepositoryMock) (groupID : String) :
    (initThings grm groupID).channels = grm.channels := by
  cases h : grm.things groupID <;> simp [initThings, h]

theorem initThings_chmembership (grm : groupRepositoryMock) (groupID : String) :
    (initThings grm groupID).channelMembership = grm.channelMembership := by
  cases h : grm.things groupID <;> simp [initThings, h]

theorem AssignThing_present (grm : groupRepositoryMock) (groupID : String)
    (thingIDs : List String) (gr : Group)
    (h : findGroup grm.groups groupID = some gr) :
    AssignThing grm groupID thingIDs =
      (.ok (), assignThingLoop groupID thingIDs (initThings grm groupID)) := by
  simp [AssignThing, h]

/-- Claim C4: for every group ID with no forward-index entry for the given
resource kind, `RetrieveGroupThings` fails with NotFound, whereas
`RetrieveGroupChannels` returns an empty page with no error — the two
paginated membership queries apply asymmetric empty-membership policies. -/
theorem c4_empty_membership_policies :
    (∀ (grm : groupRepositoryMock) (ownerID groupID : String)
        (pm : PageMetadata), grm.things groupID = none →
        RetrieveGroupThings grm ownerID groupID pm = (.error .notFound, grm)) ∧
    (∀ (grm : groupRepositoryMock) (ownerID groupID : String)
        (pm : PageMetadata), grm.channels groupID = none →
        RetrieveGroupChannels grm ownerID groupID pm = (.ok {}, grm)) := by
  constructor
  · intro grm ownerID groupID pm h
    simp [RetrieveGroupThings, h]
  · intro grm ownerID groupID pm h
    simp [RetrieveGroupChannels, h]

/-- Witness for C4: the empty repository has no forward entry for `g1`, and
the two retrievals disagree exactly as the theorem states. -/
theorem c4_empty_membership_policies_witness :
    NewGroupRepository.things "g1" = none ∧
    NewGroupRepository.channels "g1" = none ∧
    RetrieveGroupThings NewGroupRepository "o1" "g1" {} =
      (.error .notFound, NewGroupRepository) ∧
    RetrieveGroupChannels NewGroupRepository "o1" "g1" {} =
      (.ok {}, NewGroupRepository) :=
  ⟨rfl, rfl,
    c4_empty_membership_policies.1 NewGroupRepository "o1" "g1" {} rfl,
    c4_empty_membership_policies.2 NewGroupRepository "o1" "g1" {} rfl⟩

/-- Claim C5: for an existing group, `AssignThing` appends each thing ID to
the group's forward sequence (without deduplication) and points its
reverse-index entry at the group, with no error and no condition on the
thing's prior membership; forward sequences of other groups and reverse
entries of other things are untouched, so an old assignment elsewhere is
not cleaned up.  If the group does not exist it fails with NotFound and
changes no state. -/
theorem c5_assignThing_semantics :
    (∀ (grm : groupRepositoryMock) (groupID : String) (thingIDs : List String),
        findGroup grm.groups groupID = none →
        AssignThing grm groupID thingIDs = (.error .notFound, grm)) ∧
    (∀ (grm : groupRepositoryMock) (groupID : String) (thingIDs : List String)
        (gr : Group), findGroup grm.groups groupID = some gr →
        (AssignThing grm groupID thingIDs).1 = .ok () ∧
        (AssignThing grm groupID thingIDs).2.things groupID =
          some ((grm.things groupID).getD [] ++ thingIDs) ∧
        (∀ t ∈ thingIDs,
          (AssignThing grm groupID thingIDs).2.thingMembership t =
            some groupID) ∧
        (∀ g, g ≠ groupID →
          (AssignThing grm groupID thingIDs).2.things g = grm.things g) ∧
        (∀ t, t ∉ thingIDs →
          (AssignThing grm groupID thingIDs).2.thingMembership t =
            grm.thingMembership t)) := by
  constructor
  · intro grm groupID thingIDs h
    simp [AssignThing, h]
  · intro grm groupID thingIDs gr h
    have hres : AssignThing grm groupID thingIDs =
        (.ok (), assignThingLoop groupID thingIDs (initThings grm groupID)) := by
      simp [AssignThing, h]
    rw [hres]
    refine ⟨rfl, ?_, ?_, ?_, ?_⟩
    · rw [assignThingLoop_things groupID thingIDs _ _
        (initThings_things_self grm groupID) groupID, if_pos rfl]
    · intro t ht
      rw [assignThingLoop_membership, if_pos ht]
    · intro g hg
      rw [assignThingLoop_things groupID thingIDs _ _
        (initThings_things_self grm groupID) g, if_neg hg,
        initThings_things_other grm groupID g hg]
    · intro t ht
      rw [assignThingLoop_membership, if_neg ht, initThings_membership]

/-- Witness for C5: assigning `t1` twice to the saved group `g1` yields two
forward entries and a reverse entry pointing at `g1`. -/
theorem c5_assignThing_semantics_witness :
    findGroup (Save NewGroupRepository gA).2.groups "g1" = some gA ∧
    ((AssignThing (Save NewGroupRepository gA).2 "g1" ["t1", "t1"]).1 =
        .ok () ∧
      (AssignThing (Save NewGroupRepository gA).2 "g1" ["t1", "t1"]).2.things
          "g1" =
        some (((Save NewGroupRepository gA).2.things "g1").getD [] ++
          ["t1", "t1"]) ∧
      (∀ t ∈ ["t1", "t1"],
        (AssignThing (Save NewGroupRepository gA).2 "g1"
            ["t1", "t1"]).2.thingMembership t = some "g1") ∧
      (∀ g, g ≠ "g1" →
        (AssignThing (Save NewGroupRepository gA).2 "g1"
            ["t1", "t1"]).2.things g = (Save NewGroupRepository gA).2.things g) ∧
      (∀ t, t ∉ ["t1", "t1"] →
        (AssignThing (Save NewGroupRepository gA).2 "g1"
            ["t1", "t1"]).2.thingMembership t =
          (Save NewGroupRepository gA).2.thingMembership t)) :=
  ⟨by decide,
    c5_assignThing_semantics.2 (Save NewGroupRepository gA).2 "g1"
      ["t1", "t1"] gA (by decide)⟩

/-- Counterexample for C7: the claim says `UnassignThing` fails with
NotFound whenever the group has no recorded things at all, but with an
empty batch of thing IDs the loop never consults the forward index, so the
call succeeds on a group with no forward-index entry. -/
theorem c7_counterexample_empty_batch :
    ¬ (∀ (grm : groupRepositoryMock) (groupID : String)
        (thingIDs : List String),
        (findGroup grm.groups groupID).isSome → grm.things groupID = none →
        (UnassignThing grm groupID thingIDs).1 = .error .notFound) := by
  intro hclaim
  have h := hclaim (Save NewGroupRepository gA).2 "g1" [] (by decide) rfl
  rw [show (UnassignThing (Save NewGroupRepository gA).2 "g1" []).1 =
    .ok () from rfl] at h
  exact Except.noConfusion h

/-- Claim C7, amended: `UnassignThing` fails with NotFound if the group is
absent; for a nonempty batch it fails with NotFound when the group has no
forward-index entry (an empty batch succeeds with no state change even
then); a batched thing ID that appears in the forward sequence has its
first occurrence removed and its reverse-index entry deleted; one that does
not appear is a silent no-op with no error and no state change. -/
theorem c7_unassignThing_amended :
    (∀ (grm : groupRepositoryMock) (groupID : String)
        (thingIDs : List String), findGroup grm.groups groupID = none →
        UnassignThing grm groupID thingIDs = (.error .notFound, grm)) ∧
    (∀ (grm : groupRepositoryMock) (groupID t : String) (rest : List String)
        (gr : Group), findGroup grm.groups groupID = some gr →
        grm.things groupID = none →
        UnassignThing grm groupID (t :: rest) = (.error .notFound, grm)) ∧
    (∀ (grm : groupRepositoryMock) (groupID : String) (gr : Group),
        findGroup grm.groups groupID = some gr →
        UnassignThing grm groupID [] = (.ok (), grm)) ∧
    (∀ (grm : groupRepositoryMock) (groupID t : String) (ths : List String)
        (gr : Group), findGroup grm.groups groupID = some gr →
        grm.things groupID = some ths → t ∈ ths →
        UnassignThing grm groupID [t] =
          (.ok (), { grm with
            things := upd grm.things groupID (some (removeFirst ths t))
            thingMembership := upd grm.thingMembership t none })) ∧
    (∀ (grm : groupRepositoryMock) (groupID t : String) (ths : List String)
        (gr : Group), findGroup grm.groups groupID = some gr →
        grm.things groupID = some ths → t ∉ ths →
        UnassignThing grm groupID [t] = (.ok (), grm)) ∧
    (∀ (ths : List String) (t : String), removeFirst ths t = ths.erase t) := by
  refine ⟨?_, ?_, ?_, ?_, ?_, ?_⟩
  · intro grm groupID thingIDs h
    simp [UnassignThing, h]
  · intro grm groupID t rest gr h hn
    simp [UnassignThing, h, unassignThingLoop, hn]
  · intro grm groupID gr h
    simp [UnassignThing, h, unassignThingLoop]
  · intro grm groupID t ths gr h hsome hmem
    simp [UnassignThing, h, unassignThingLoop, hsome, hmem]
  · intro grm groupID t ths gr h hsome hmem
    simp [UnassignThing, h, unassignThingLoop, hsome, hmem]
  · intro ths t
    induction ths with
    | nil => rfl
    | cons x xs ih =>
      by_cases hx : x = t
      · simp [removeFirst, hx, List.erase_cons]
      · simp [removeFirst, hx, List.erase_cons, ih]

/-- Witness for C7 (amended): on the group `g1` with forward sequence
`[t1, t2]`, unassigning `t1` removes its first occurrence and deletes its
reverse entry. -/
theorem c7_unassignThing_amended_witness :
    findGroup (AssignThing (Save NewGroupRepository gA).2 "g1"
        ["t1", "t2"]).2.groups "g1" = some gA ∧
    (AssignThing (Save NewGroupRepository gA).2 "g1" ["t1", "t2"]).2.things
        "g1" = some ["t1", "t2"] ∧
    "t1" ∈ ["t1", "t2"] ∧
    UnassignThing (AssignThing (Save NewGroupRepository gA).2 "g1"
        ["t1", "t2"]).2 "g1" ["t1"] =
      (.ok (), { (AssignThing (Save NewGroupRepository gA).2 "g1"
          ["t1", "t2"]).2 with
        things := upd (AssignThing (Save NewGroupRepository gA).2 "g1"
            ["t1", "t2"]).2.things "g1" (some (removeFirst ["t1", "t2"] "t1"))
        thingMembership := upd (AssignThing (Save NewGroupRepository gA).2
            "g1" ["t1", "t2"]).2.thingMembership "t1" none }) :=
  ⟨by decide, by decide, by decide,
    (c7_unassignThing_amended.2.2.2.1) _ "g1" "t1" ["t1", "t2"] gA
      (by decide) (by decide) (by decide)⟩

/-- Claim C9: `Update` on a stored group overwrites only `Name`,
`Description` and `Metadata` from the input and stamps `UpdatedAt` with the
current time, while `ID`, `OwnerID` and `CreatedAt` come from the stored
record; other groups are untouched.  On an absent group ID it returns
NotFound and the state is unchanged, so no group is created. -/
theorem c9_update_semantics :
    (∀ (grm : groupRepositoryMock) (group : Group) (now : Nat),
        findGroup grm.groups group.ID = none →
        Update grm group now = (.error .notFound, grm)) ∧
    (∀ (grm : groupRepositoryMock) (group : Group) (now : Nat) (st : Group),
        findGroup grm.groups group.ID = some st →
        ∃ g', (Update grm group now).1 = .ok g' ∧
          g'.Name = group.Name ∧ g'.Description = group.Description ∧
          g'.Metadata = group.Metadata ∧ g'.UpdatedAt = now ∧
          g'.ID = st.ID ∧ g'.OwnerID = st.OwnerID ∧
          g'.CreatedAt = st.CreatedAt ∧
          findGroup (Update grm group now).2.groups group.ID = some g' ∧
          (∀ id, id ≠ group.ID →
            findGroup (Update grm group now).2.groups id =
              findGroup grm.groups id)) := by
  constructor
  · intro grm group now h
    simp [Update, h]
  · intro grm group now st h
    have hu : Update grm group now =
        (.ok (updatedGroup st group now),
         { grm with groups :=
            replaceGroup grm.groups group.ID (updatedGroup st group now) }) := by
      simp [Update, h]
    refine ⟨updatedGroup st group now,
      by rw [hu], rfl, rfl, rfl, rfl, rfl, rfl, rfl, ?_, ?_⟩
    · rw [hu]
      show findGroup (replaceGroup grm.groups group.ID _) group.ID = _
      rw [findGroup_replace, if_pos rfl, h, Option.map_some']
    · intro id hid
      rw [hu]
      show findGroup (replaceGroup grm.groups group.ID _) id = _
      rw [findGroup_replace, if_neg hid]

/-- Input record for the C9 witness: same ID as `gA` but different owner,
timestamps and descriptive fields. -/
def gIn9 : Group :=
  { ID := "g1", OwnerID := "oX", Name := "n9", Description := "d9",
    Metadata := [("k", "v")], CreatedAt := 99, UpdatedAt := 77 }

/-- Witness for C9: updating the stored `g1` with new name, description,
metadata and foreign owner/timestamps keeps `ID`, `OwnerID`, `CreatedAt`
from the stored record. -/
theorem c9_update_semantics_witness :
    findGroup (Save NewGroupRepository gA).2.groups gIn9.ID = some gA ∧
    (∃ g', (Update (Save NewGroupRepository gA).2 gIn9 5).1 = .ok g' ∧
      g'.Name = gIn9.Name ∧ g'.Description = gIn9.Description ∧
      g'.Metadata = gIn9.Metadata ∧ g'.UpdatedAt = 5 ∧
      g'.ID = gA.ID ∧ g'.OwnerID = gA.OwnerID ∧ g'.CreatedAt = gA.CreatedAt ∧
      findGroup (Update (Save NewGroupRepository gA).2 gIn9 5).2.groups
        gIn9.ID = some g' ∧
      (∀ id, id ≠ gIn9.ID →
        findGroup (Update (Save NewGroupRepository gA).2 gIn9 5).2.groups id =
          findGroup (Save NewGroupRepository gA).2.groups id)) :=
  ⟨by decide,
    c9_update_semantics.2 (Save NewGroupRepository gA).2 gIn9 5 gA (by decide)⟩

/-- Claim C6: whenever a `Remove` call deletes group `g`, every thing and
channel that was in `g`'s forward sequences at call time has its
reverse-index entry erased in the resulting state, so the membership
lookups report NotFound. -/
theorem c6_remove_cascades_membership
    (ids : List String) (grm : groupRepositoryMock) (g : String)
    (hpre : (findGroup grm.groups g).isSome)
    (hpost : findGroup (Remove grm ids).2.groups g = none) :
    (∀ t ∈ (grm.things g).getD [],
      (Remove grm ids).2.thingMembership t = none) ∧
    (∀ c ∈ (grm.channels g).getD [],
      (Remove grm ids).2.channelMembership c = none) := by
  induction ids generalizing grm with
  | nil =>
    rw [show (Remove grm []).2 = grm from rfl] at hpost
    rw [hpost] at hpre
    simp at hpre
  | cons id rest ih =>
    cases hf : findGroup grm.groups id with
    | none =>
      have h2 : (Remove grm (id :: rest)).2 = grm := by simp [Remove, hf]
      rw [h2] at hpost
      rw [hpost] at hpre
      simp at hpre
    | some gr =>
      have hstep : Remove grm (id :: rest) = Remove (removeOne grm id) rest := by
        simp [Remove, hf]
      rcases eq_or_ne g id with hg | hg
      · subst hg
        constructor
        · intro t ht
          rw [hstep]
          exact Remove_mem_none rest _ t (removeOne_member_none grm g t ht)
        · intro c hc
          rw [hstep]
          exact Remove_chmem_none rest _ c (removeOne_chmember_none grm g c hc)
      · have hpre' : (findGroup (removeOne grm id).groups g).isSome := by
          rw [removeOne_groups_other grm id g hg]; exact hpre
        have hpost' : findGroup (Remove (removeOne grm id) rest).2.groups g =
            none := by
          rw [← hstep]; exact hpost
        have hrec := ih (removeOne grm id) hpre' hpost'
        rw [hstep]
        exact hrec

/-- State for the C6 witness: group `g1` with thing `t1` and channel `c1`
assigned. -/
def sC6 : groupRepositoryMock :=
  (AssignChannel (AssignThing (Save NewGroupRepository gA).2 "g1"
    ["t1"]).2 "g1" ["c1"]).2

/-- Witness for C6: removing `g1` erases the reverse entries of `t1` and
`c1`. -/
theorem c6_remove_cascades_membership_witness :
    (findGroup sC6.groups "g1").isSome ∧
    findGroup (Remove sC6 ["g1"]).2.groups "g1" = none ∧
    ((∀ t ∈ (sC6.things "g1").getD [],
        (Remove sC6 ["g1"]).2.thingMembership t = none) ∧
      (∀ c ∈ (sC6.channels "g1").getD [],
        (Remove sC6 ["g1"]).2.channelMembership c = none)) :=
  ⟨by decide, by decide,
    c6_remove_cascades_membership ["g1"] sC6 "g1" (by decide) (by decide)⟩

/-- The success half of the `Remove` batch contract: with all IDs present
and distinct, the whole batch is removed and the call reports success. -/
theorem Remove_batch_ok (ids : List String) :
    ∀ grm : groupRepositoryMock, ids.Nodup →
      (∀ i ∈ ids, (findGroup grm.groups i).isSome) →
      (Remove grm ids).1 = .ok () ∧
      (∀ i ∈ ids, findGroup (Remove grm ids).2.groups i = none) := by
  induction ids with
  | nil => intro grm _ _; exact ⟨rfl, by simp⟩
  | cons id rest ih =>
    intro grm hnd hall
    have hid : (findGroup grm.groups id).isSome := hall id (by simp)
    obtain ⟨gr, hgr⟩ := Option.isSome_iff_exists.mp hid
    have hstep : Remove grm (id :: rest) = Remove (removeOne grm id) rest := by
      simp [Remove, hgr]
    have hnotmem : id ∉ rest := (List.nodup_cons.mp hnd).1
    have hall' : ∀ i ∈ rest, (findGroup (removeOne grm id).groups i).isSome := by
      intro i hi
      have hne : i ≠ id := fun h => hnotmem (h ▸ hi)
      rw [removeOne_groups_other grm id i hne]
      exact hall i (by simp [hi])
    obtain ⟨hok, hgone⟩ :=
      ih (removeOne grm id) (List.nodup_cons.mp hnd).2 hall'
    refine ⟨by rw [hstep]; exact hok, ?_⟩
    intro i hi
    rw [hstep]
    rcases List.mem_cons.mp hi with hi1 | hi2
    · subst hi1
      exact Remove_groups_none rest _ i (removeOne_groups_self grm i)
    · exact hgone i hi2

/-- The failure half of the `Remove` batch contract: the first absent ID
aborts the batch with NotFound, and the IDs removed before it stay
removed. -/
theorem Remove_batch_stops (pre : List String) :
    ∀ (grm : groupRepositoryMock) (bad : String) (post : List String),
      pre.Nodup → (∀ p ∈ pre, (findGroup grm.groups p).isSome) →
      findGroup grm.groups bad = none →
      (Remove grm (pre ++ bad :: post)).1 = .error .notFound ∧
      (∀ p ∈ pre,
        findGroup (Remove grm (pre ++ bad :: post)).2.groups p = none) := by
  induction pre with
  | nil =>
    intro grm bad post _ _ hbad
    exact ⟨by simp [Remove, hbad], by simp⟩
  | cons p pre' ih =>
    intro grm bad post hnd hall hbad
    have hp : (findGroup grm.groups p).isSome := hall p (by simp)
    obtain ⟨gr, hgr⟩ := Option.isSome_iff_exists.mp hp
    have hstep : Remove grm ((p :: pre') ++ bad :: post) =
        Remove (removeOne grm p) (pre' ++ bad :: post) := by
      simp [Remove, hgr]
    have hnotmem : p ∉ pre' := (List.nodup_cons.mp hnd).1
    have hall' : ∀ q ∈ pre', (findGroup (removeOne grm p).groups q).isSome := by
      intro q hq
      have hne : q ≠ p := fun h => hnotmem (h ▸ hq)
      rw [removeOne_groups_other grm p q hne]
      exact hall q (by simp [hq])
    have hbad' : findGroup (removeOne grm p).groups bad = none := by
      rcases eq_or_ne bad p with hb | hb
      · rw [hb]; exact removeOne_groups_self grm p
      · rw [removeOne_groups_other grm p bad hb]; exact hbad
    obtain ⟨herr, hgone⟩ :=
      ih (removeOne grm p) bad post (List.nodup_cons.mp hnd).2 hall' hbad'
    refine ⟨by rw [hstep]; exact herr, ?_⟩
    intro q hq
    rw [hstep]
    rcases List.mem_cons.mp hq with hq1 | hq2
    · subst hq1
      exact Remove_groups_none _ _ q (removeOne_groups_self grm q)
    · exact hgone q hq2

/-- Claim C8: a `Remove` batch stops at the first absent ID with NotFound,
keeping the groups already removed before the failure removed; when every
ID is present, all of them are removed and the call succeeds. -/
theorem c8_remove_batch_semantics :
    (∀ (grm : groupRepositoryMock) (pre : List String) (bad : String)
        (post : List String), pre.Nodup →
        (∀ p ∈ pre, (findGroup grm.groups p).isSome) →
        findGroup grm.groups bad = none →
        (Remove grm (pre ++ bad :: post)).1 = .error .notFound ∧
        (∀ p ∈ pre,
          findGroup (Remove grm (pre ++ bad :: post)).2.groups p = none)) ∧
    (∀ (grm : groupRepositoryMock) (ids : List String), ids.Nodup →
        (∀ i ∈ ids, (findGroup grm.groups i).isSome) →
        (Remove grm ids).1 = .ok () ∧
        (∀ i ∈ ids, findGroup (Remove grm ids).2.groups i = none)) :=
  ⟨fun grm pre bad post hnd hall hbad =>
      Remove_batch_stops pre grm bad post hnd hall hbad,
    fun grm ids hnd hall => Remove_batch_ok ids grm hnd hall⟩

/-- State for the C8 witness: groups `g1` and `g2` stored. -/
def sC8 : groupRepositoryMock := (Save (Save NewGroupRepository gA).2 gB).2

/-- Witness for C8: removing `[g1, gX, g2]` fails at the absent `gX` yet
leaves `g1` removed, while removing `[g1, g2]` succeeds and removes both. -/
theorem c8_remove_batch_semantics_witness :
    (List.Nodup ["g1"] ∧ (∀ p ∈ ["g1"], (findGroup sC8.groups p).isSome) ∧
      findGroup sC8.groups "gX" = none ∧
      (Remove sC8 (["g1"] ++ "gX" :: ["g2"])).1 = .error .notFound ∧
      (∀ p ∈ ["g1"],
        findGroup (Remove sC8 (["g1"] ++ "gX" :: ["g2"])).2.groups p =
          none)) ∧
    (List.Nodup ["g1", "g2"] ∧
      (∀ i ∈ ["g1", "g2"], (findGroup sC8.groups i).isSome) ∧
      (Remove sC8 ["g1", "g2"]).1 = .ok () ∧
      (∀ i ∈ ["g1", "g2"],
        findGroup (Remove sC8 ["g1", "g2"]).2.groups i = none)) := by
  have h1 := c8_remove_batch_semantics.1 sC8 ["g1"] "gX" ["g2"]
    (by decide) (by decide) (by decide)
  have h2 := c8_remove_batch_semantics.2 sC8 ["g1", "g2"]
    (by decide) (by decide)
  exact ⟨⟨by decide, by decide, by decide, h1.1, h1.2⟩,
    ⟨by decide, by decide, h2.1, h2.2⟩⟩

/-- Claim C10: from any state with distinct existing groups `g1` and `g2`,
assigning thing `t` to `g1` and then to `g2` and finally removing `g1`
erases `t`'s reverse-index entry (because `t` still sits in `g1`'s stale
forward sequence), so the membership lookup reports NotFound even though
`g2` — the group `t` was last assigned to — still exists. -/
theorem c10_cross_group_remove
    (grm : groupRepositoryMock) (g1 g2 t : String)
    (h12 : g1 ≠ g2)
    (hg1 : (findGroup grm.groups g1).isSome)
    (hg2 : (findGroup grm.groups g2).isSome) :
    (AssignThing grm g1 [t]).1 = .ok () ∧
    (AssignThing (AssignThing grm g1 [t]).2 g2 [t]).1 = .ok () ∧
    (AssignThing (AssignThing grm g1 [t]).2 g2 [t]).2.thingMembership t =
      some g2 ∧
    (Remove (AssignThing (AssignThing grm g1 [t]).2 g2 [t]).2 [g1]).1 =
      .ok () ∧
    (RetrieveThingMembership
      (Remove (AssignThing (AssignThing grm g1 [t]).2 g2 [t]).2 [g1]).2
      t).1 = .error .notFound ∧
    (findGroup
      (Remove (AssignThing (AssignThing grm g1 [t]).2 g2 [t]).2
        [g1]).2.groups g2).isSome := by
  obtain ⟨gr1, hgr1⟩ := Option.isSome_iff_exists.mp hg1
  have hA1 : AssignThing grm g1 [t] =
      (.ok (), assignThingLoop g1 [t] (initThings grm g1)) :=
    AssignThing_present grm g1 [t] gr1 hgr1
  have hs1groups : (AssignThing grm g1 [t]).2.groups = grm.groups := by
    rw [hA1]
    show (assignThingLoop g1 [t] (initThings grm g1)).groups = grm.groups
    rw [assignThingLoop_groups, initThings_groups]
  have hs1things : (AssignThing grm g1 [t]).2.things g1 =
      some ((grm.things g1).getD [] ++ [t]) := by
    rw [hA1]
    show (assignThingLoop g1 [t] (initThings grm g1)).things g1 = _
    rw [assignThingLoop_things g1 [t] _ _ (initThings_things_self grm g1) g1,
      if_pos rfl]
  have hg2' : (findGroup (AssignThing grm g1 [t]).2.groups g2).isSome := by
    rw [hs1groups]; exact hg2
  obtain ⟨gr2, hgr2⟩ := Option.isSome_iff_exists.mp hg2'
  have hA2 : AssignThing (AssignThing grm g1 [t]).2 g2 [t] =
      (.ok (), assignThingLoop g2 [t]
        (initThings (AssignThing grm g1 [t]).2 g2)) :=
    AssignThing_present (AssignThing grm g1 [t]).2 g2 [t] gr2 hgr2
  have hs2groups :
      (AssignThing (AssignThing grm g1 [t]).2 g2 [t]).2.groups =
        grm.groups := by
    rw [hA2]
    show (assignThingLoop g2 [t] _).groups = grm.groups
    rw [assignThingLoop_groups, initThings_groups]
    exact hs1groups
  have hs2mem :
      (AssignThing (AssignThing grm g1 [t]).2 g2 [t]).2.thingMembership t =
        some g2 := by
    rw [hA2]
    show (assignThingLoop g2 [t] _).thingMembership t = some g2
    rw [assignThingLoop_membership, if_pos (by simp)]
  have hs2things :
      (AssignThing (AssignThing grm g1 [t]).2 g2 [t]).2.things g1 =
        some ((grm.things g1).getD [] ++ [t]) := by
    rw [hA2]
    show (assignThingLoop g2 [t] _).things g1 = _
    rw [assignThingLoop_things g2 [t] _ _
      (initThings_things_self (AssignThing grm g1 [t]).2 g2) g1,
      if_neg h12,
      initThings_things_other (AssignThing grm g1 [t]).2 g2 g1 h12]
    exact hs1things
  have hg1s2 :
      findGroup (AssignThing (AssignThing grm g1 [t]).2 g2 [t]).2.groups g1 =
        some gr1 := by
    rw [hs2groups]; exact hgr1
  have hrem : Remove (AssignThing (AssignThing grm g1 [t]).2 g2 [t]).2 [g1] =
      (.ok (),
        removeOne (AssignThing (AssignThing grm g1 [t]).2 g2 [t]).2 g1) := by
    simp [Remove, hg1s2]
  have htin : t ∈
      (((AssignThing (AssignThing grm g1 [t]).2 g2 [t]).2.things g1).getD
        []) := by
    rw [hs2things]
    simp
  have hmemgone :
      (Remove (AssignThing (AssignThing grm g1 [t]).2 g2 [t]).2
        [g1]).2.thingMembership t = none := by
    rw [hrem]
    exact removeOne_member_none _ g1 t htin
  refine ⟨by rw [hA1], by rw [hA2], hs2mem, by rw [hrem], ?_, ?_⟩
  · simp [RetrieveThingMembership, hmemgone]
  · rw [hrem]
    show (findGroup (removeOne _ g1).groups g2).isSome
    rw [removeOne_groups_other _ g1 g2 (Ne.symm h12), hs2groups]
    exact hg2

/-- Witness for C10: with groups `g1`, `g2` stored and thing `t1` assigned
to `g1` then `g2`, removing `g1` destroys `t1`'s membership record. -/
theorem c10_cross_group_remove_witness :
    ("g1" : String) ≠ "g2" ∧ (findGroup sC8.groups "g1").isSome ∧
    (findGroup sC8.groups "g2").isSome ∧
    ((AssignThing sC8 "g1" ["t1"]).1 = .ok () ∧
      (AssignThing (AssignThing sC8 "g1" ["t1"]).2 "g2" ["t1"]).1 = .ok () ∧
      (AssignThing (AssignThing sC8 "g1" ["t1"]).2 "g2"
          ["t1"]).2.thingMembership "t1" = some "g2" ∧
      (Remove (AssignThing (AssignThing sC8 "g1" ["t1"]).2 "g2"
          ["t1"]).2 ["g1"]).1 = .ok () ∧
      (RetrieveThingMembership
        (Remove (AssignThing (AssignThing sC8 "g1" ["t1"]).2 "g2"
            ["t1"]).2 ["g1"]).2 "t1").1 = .error .notFound ∧
      (findGroup
        (Remove (AssignThing (AssignThing sC8 "g1" ["t1"]).2 "g2"
            ["t1"]).2 ["g1"]).2.groups "g2").isSome) :=
  ⟨by decide, by decide, by decide,
    c10_cross_group_remove sC8 "g1" "g2" "t1" (by decide) (by decide)
      (by decide)⟩

/-- Claim C1 fails on the code: the state reached by saving `g1` satisfies
the two-sided index invariant, yet a single `AssignThing` of `t1` to `g1`
twice succeeds and leaves a state where `t1`'s reverse entry points at `g1`
while `t1` occurs twice — not exactly once — in `g1`'s forward sequence. -/
theorem c1_invariant_not_preserved :
    indexInv (Save NewGroupRepository gA).2 ∧
    (AssignThing (Save NewGroupRepository gA).2 "g1" ["t1", "t1"]).1 =
      .ok () ∧
    ¬ indexInv
      (AssignThing (Save NewGroupRepository gA).2 "g1" ["t1", "t1"]).2 := by
  refine ⟨⟨?_, ?_⟩, rfl, ?_⟩
  · intro t g
    constructor
    · intro h
      exact Option.noConfusion h
    · intro h
      simp [Save, NewGroupRepository, findGroup] at h
  · intro c g
    constructor
    · intro h
      exact Option.noConfusion h
    · intro h
      simp [Save, NewGroupRepository, findGroup] at h
  · intro hinv
    have h := hinv.1 "t1" "g1"
    have hm : (AssignThing (Save NewGroupRepository gA).2 "g1"
        ["t1", "t1"]).2.thingMembership "t1" = some "g1" := by decide
    have hc : (((AssignThing (Save NewGroupRepository gA).2 "g1"
        ["t1", "t1"]).2.things "g1").getD []).count "t1" = 2 := by decide
    have hone := h.mp hm
    rw [hc] at hone
    exact absurd hone (by decide)

/-- State for the C2 counterscenario: group `g1` with forward sequence
`[t1, t2, t3]`. -/
def sC2 : groupRepositoryMock :=
  (AssignThing (Save NewGroupRepository gA).2 "g1" ["t1", "t2", "t3"]).2

/-- Claim C2 fails on the code: with three members and `Offset = 1`,
`Limit = 1`, `RetrieveGroupThings` returns the expected single item `t2`
but reports `Total = 1` — the size of the returned slice — instead of the
full membership count `3` that the claim demands. -/
theorem c2_total_reports_page_size :
    ((sC2.things "g1").getD []).length = 3 ∧
    (RetrieveGroupThings sC2 "o1" "g1" { Offset := 1, Limit := 1 }).1 =
      .ok { Things := [{ ID := "t2" }], PageMetadata := { Total := 1 } } ∧
    (1 : Nat) ≠ 3 :=
  ⟨rfl, rfl, by decide⟩

/-- State for the C3 counterscenario: groups `g1` (owner `o1`) and `g2`
(owner `o2`) stored. -/
def sC3 : groupRepositoryMock := (Save (Save NewGroupRepository gA).2 gB).2

/-- Claim C3 fails on the code: querying owner `o1` returns both stored
groups — including `g2`, whose owner is `o2` — and reports `Total = 2`,
the size of the whole store rather than of the owner-filtered
population. -/
theorem c3_owner_filter_ignored :
    gA.OwnerID = "o1" ∧ gB.OwnerID = "o2" ∧ ("o2" : String) ≠ "o1" ∧
    (RetrieveByOwner sC3 "o1" {}).1 =
      .ok { Groups := [gA, gB], PageMetadata := { Total := 2 } } :=
  ⟨rfl, rfl, by decide, rfl⟩

end Mocks
